import Mathlib

/-!
Verification development for the qt-wlroots embedded compositor.

Each C function that a claim depends on is shallowly embedded as a pure
Lean definition over explicit state; calls into the external wlroots
engine are modelled as emitted events or as boolean success parameters
supplied by the environment.  Machine integers are Nat with explicit
mod 2^32 where the C code truncates.
-/

namespace QtWlroots

/-! ### Render backend (render_backend.c, compositor_core.c) -/

/-- Render backend mode, from render_backend_type_t. -/
inductive RenderBackendType where
  | software
  | hardware
deriving DecidableEq

/-- Environment oracle for backend initialization: compile-time flags,
environment probes, and success/failure of each external wlroots call
made during comp_server_init_backend_with_renderer. -/
structure RenderEnv where
  hasGles2 : Bool
  sessionWayland : Bool
  hasDisplayEnv : Bool
  backendAllocOk : Bool
  headlessOk : Bool
  pixmanOk : Bool
  autocreateOk : Bool
  allocatorOk : Bool
  sceneOk : Bool
  outputLayoutOk : Bool
  compositorOk : Bool
  xdgShellOk : Bool
  seatOk : Bool
deriving DecidableEq

/-- render_backend_hardware_available: with GLES2 compiled in, returns
true when XDG_SESSION_TYPE is wayland or DISPLAY is set; without GLES2
support it always returns false. -/
def render_backend_hardware_available (env : RenderEnv) : Bool :=
  env.hasGles2 && (env.sessionWayland || env.hasDisplayEnv)

/-- State of a render_backend as far as initialization is concerned. -/
structure RenderBackend where
  type : RenderBackendType
  hasRenderer : Bool
  hasAllocator : Bool
deriving DecidableEq

/-- render_backend_create: allocates the backend struct and the headless
wlr_backend; fails (NULL) when either allocation fails. -/
def render_backend_create (ty : RenderBackendType) (env : RenderEnv) :
    Option RenderBackend :=
  if !env.backendAllocOk then none
  else if !env.headlessOk then none
  else some { type := ty, hasRenderer := false, hasAllocator := false }

/-- render_backend_init_renderer: software mode creates the pixman
renderer; hardware mode tries the autocreated hardware renderer and on
failure (or when GLES2 is not compiled in) downgrades the type to
software and creates the pixman renderer; then creates the allocator. -/
def render_backend_init_renderer (b : RenderBackend) (env : RenderEnv) :
    Option RenderBackend :=
  let step :=
    match b.type with
    | RenderBackendType.software =>
      if env.pixmanOk then some { b with hasRenderer := true } else none
    | RenderBackendType.hardware =>
      if env.hasGles2 then
        if env.autocreateOk then some { b with hasRenderer := true }
        else if env.pixmanOk then
          some { b with type := RenderBackendType.software, hasRenderer := true }
        else none
      else
        if env.pixmanOk then
          some { b with type := RenderBackendType.software, hasRenderer := true }
        else none
  match step with
  | none => none
  | some b2 => if env.allocatorOk then some { b2 with hasAllocator := true } else none

/-- Fields of comp_server set by backend initialization. -/
structure ServerInit where
  useHardwareRendering : Bool
  backend : RenderBackend
deriving DecidableEq

/-- comp_server_init_backend_with_renderer: records the requested mode,
downgrades to software when hardware was requested but the capability
probe fails, then creates the render backend, the renderer, the scene,
the output manager, the compositor interface, the xdg shell and the
seat, failing if any of those fail. -/
def comp_server_init_backend_with_renderer (useHardware : Bool) (env : RenderEnv) :
    Option ServerInit :=
  let ty0 := if useHardware then RenderBackendType.hardware else RenderBackendType.software
  let dg := useHardware && !render_backend_hardware_available env
  let ty := if dg then RenderBackendType.software else ty0
  let useHw := if dg then false else useHardware
  match render_backend_create ty env with
  | none => none
  | some rb =>
    match render_backend_init_renderer rb env with
    | none => none
    | some rb2 =>
      if !env.sceneOk then none
      else if !env.outputLayoutOk then none
      else if !env.compositorOk then none
      else if !env.xdgShellOk then none
      else if !env.seatOk then none
      else some { useHardwareRendering := useHw, backend := rb2 }

/-- comp_server_is_hardware_rendering. -/
def comp_server_is_hardware_rendering (s : ServerInit) : Bool :=
  s.useHardwareRendering

/-- A fully healthy environment with no GLES2 support compiled in, so the
hardware capability probe fails. -/
def envNoHw : RenderEnv :=
  { hasGles2 := false, sessionWayland := false, hasDisplayEnv := false
    backendAllocOk := true, headlessOk := true, pixmanOk := true
    autocreateOk := true, allocatorOk := true, sceneOk := true
    outputLayoutOk := true, compositorOk := true, xdgShellOk := true
    seatOk := true }

/-! ### Frame capture buffer (render_backend_capture_frame) -/

/-- The reusable pixel buffer of the render backend: its recorded size
(a uint32), an allocation identity that changes exactly when the buffer
is reallocated, and whether pixel_buffer is non-NULL. -/
structure PixelBuffer where
  bufferSize : Nat
  allocId : Nat
  allocated : Bool
deriving DecidableEq

/-- Inputs of one render_backend_capture_frame call that come from the
engine: success of wlr_scene_output_build_state, presence of
state.buffer, success of wlr_buffer_begin_data_ptr_access, the reported
stride and buffer height, success of malloc on reallocation, and on the
hardware path success of wlr_buffer_get_dmabuf. -/
structure CaptureInput where
  buildStateOk : Bool
  bufferPresent : Bool
  dataPtrOk : Bool
  bufStride : Nat
  height : Nat
  mallocOk : Bool
  dmabufOk : Bool
deriving DecidableEq

/-- The shared copy path of render_backend_capture_frame (identical in
the software case and the hardware DMA-BUF fallback): computes
needed_size = stride * height as a uint32, and reallocates the pixel
buffer only when the current buffer_size is strictly smaller. -/
def capture_copy_path (b : PixelBuffer) (bufStride height : Nat) (mallocOk : Bool) :
    PixelBuffer :=
  let needed := (bufStride * height) % 2 ^ 32
  if b.bufferSize < needed then
    { bufferSize := needed, allocId := b.allocId + 1, allocated := mallocOk }
  else b

/-- render_backend_capture_frame: returns the new pixel-buffer state and
whether the call reported success.  The hardware path first tries the
zero-copy DMA-BUF extraction, which leaves the pixel buffer untouched. -/
def render_backend_capture_frame (ty : RenderBackendType) (b : PixelBuffer)
    (inp : CaptureInput) : PixelBuffer × Bool :=
  if !inp.buildStateOk then (b, false)
  else if !inp.bufferPresent then (b, false)
  else
    match ty with
    | RenderBackendType.software =>
      if !inp.dataPtrOk then (b, false)
      else
        let b2 := capture_copy_path b inp.bufStride inp.height inp.mallocOk
        (b2, b2.allocated)
    | RenderBackendType.hardware =>
      if inp.dmabufOk then (b, true)
      else if !inp.dataPtrOk then (b, false)
      else
        let b2 := capture_copy_path b inp.bufStride inp.height inp.mallocOk
        (b2, b2.allocated)

/-- A sequence of captures, threading the pixel-buffer state. -/
def capture_run (b : PixelBuffer) : List (RenderBackendType × CaptureInput) → PixelBuffer
  | [] => b
  | (ty, inp) :: rest => capture_run (render_backend_capture_frame ty b inp).1 rest

/-! ### View lifecycle (xdg_shell_handler.c) -/

/-- The per-view state tracked by struct comp_view, restricted to the
fields the lifecycle handlers read and write.  sceneTree holds the
identity of the wlr_scene_tree returned at map time, none when the
pointer field is NULL. -/
structure CompView where
  surface : Nat
  x : Int
  y : Int
  mapped : Bool
  sceneTree : Option Nat
  pendingConfigure : Bool
  listenersActive : Bool
deriving DecidableEq

/-- Calls the lifecycle handlers make into the engine or the host. -/
inductive ViewEvent where
  | configure (w h : Nat) (fullscreen activated : Bool)
  | focusRequest
  | viewAdded
  | viewRemoved
  | keyboardClearIfFocused
  | frameCommit
deriving DecidableEq

/-- Signals the engine delivers for one toplevel.  A map signal carries
the identity of the scene tree wlr_scene_xdg_surface_create would
return and whether that creation succeeds. -/
inductive ViewSignal where
  | newToplevel (surface : Nat)
  | mapped (sceneId : Nat) (createOk : Bool)
  | unmapped
  | committed (initialCommit : Bool)
  | destroyed
deriving DecidableEq

/-- The view handle_new_xdg_toplevel allocates: unmapped, no scene tree
(created at map time), default position (50, 50), listeners active. -/
def fresh_view (surface : Nat) : CompView :=
  { surface := surface, x := 50, y := 50, mapped := false, sceneTree := none
    pendingConfigure := false, listenersActive := true }

/-- handle_xdg_toplevel_map: creates the scene tree now that the surface
has a valid role; on creation failure it returns early.  On success it
positions the node, sets mapped, focuses the view and notifies the host
that a view was added. -/
def handle_xdg_toplevel_map (v : CompView) (sceneId : Nat) (createOk : Bool) :
    CompView × List ViewEvent :=
  if createOk then
    ({ v with sceneTree := some sceneId, mapped := true },
     [ViewEvent.focusRequest, ViewEvent.viewAdded])
  else
    ({ v with sceneTree := none }, [])

/-- handle_xdg_toplevel_unmap: clears mapped, notifies the host before
cleanup, and clears keyboard focus if this view held it.  The scene-tree
field is not touched. -/
def handle_xdg_toplevel_unmap (v : CompView) : CompView × List ViewEvent :=
  ({ v with mapped := false },
   [ViewEvent.viewRemoved, ViewEvent.keyboardClearIfFocused])

/-- handle_xdg_toplevel_commit: after the initial commit, if no configure
is pending, sends the initial configure (640x480, fullscreen, activated)
and sets pending_configure; then, if the view is mapped, notifies a
frame commit. -/
def handle_xdg_toplevel_commit (v : CompView) (initialCommit : Bool) :
    CompView × List ViewEvent :=
  let (v1, evs1) :=
    if initialCommit && !v.pendingConfigure then
      ({ v with pendingConfigure := true }, [ViewEvent.configure 640 480 true true])
    else (v, [])
  (v1, evs1 ++ if v1.mapped then [ViewEvent.frameCommit] else [])

/-- One delivered signal for a single-view lifecycle: none stands for
no live view (before new-toplevel or after destroy). -/
def view_lifecycle_step (st : Option CompView) (sig : ViewSignal) :
    Option CompView × List ViewEvent :=
  match st, sig with
  | none, ViewSignal.newToplevel s => (some (fresh_view s), [])
  | none, _ => (none, [])
  | some v, ViewSignal.newToplevel _ => (some v, [])
  | some v, ViewSignal.mapped id ok =>
    let (v2, evs) := handle_xdg_toplevel_map v id ok
    (some v2, evs)
  | some v, ViewSignal.unmapped =>
    let (v2, evs) := handle_xdg_toplevel_unmap v
    (some v2, evs)
  | some v, ViewSignal.committed init =>
    let (v2, evs) := handle_xdg_toplevel_commit v init
    (some v2, evs)
  | some _, ViewSignal.destroyed => (none, [])

/-- Runs a list of signals from a given state, concatenating events. -/
def view_lifecycle_exec (st : Option CompView) : List ViewSignal → Option CompView × List ViewEvent
  | [] => (st, [])
  | sig :: rest =>
    ((view_lifecycle_exec (view_lifecycle_step st sig).1 rest).1,
     (view_lifecycle_step st sig).2 ++
       (view_lifecycle_exec (view_lifecycle_step st sig).1 rest).2)

/-- Engine contract on signal order for one toplevel, tracked through
the accumulators created / protocol-mapped / has-committed: signals
arrive only after new-toplevel, map and unmap alternate, the
initial-commit marker is set exactly on the first commit, and nothing
follows destroy (listeners are gone). -/
def viewTraceWFAux : Bool → Bool → Bool → List ViewSignal → Bool
  | _, _, _, [] => true
  | false, _, _, ViewSignal.newToplevel _ :: rest => viewTraceWFAux true false false rest
  | false, _, _, _ => false
  | true, pm, cm, sig :: rest =>
    match sig with
    | ViewSignal.newToplevel _ => false
    | ViewSignal.mapped _ _ => !pm && cm && viewTraceWFAux true true cm rest
    | ViewSignal.unmapped => pm && viewTraceWFAux true false cm rest
    | ViewSignal.committed init => (init == !cm) && viewTraceWFAux true pm true rest
    | ViewSignal.destroyed => rest.isEmpty

/-- Wellformed signal trace for a fresh toplevel. -/
def viewTraceWF (tr : List ViewSignal) : Bool :=
  viewTraceWFAux false false false tr

/-- Counts the configure events in an event list. -/
def configureCount (evs : List ViewEvent) : Nat :=
  evs.countP fun e =>
    match e with
    | ViewEvent.configure _ _ _ _ => true
    | _ => false

/-- A run of commit signals only, with arbitrary initial-commit markers. -/
def commit_sequence (v : CompView) : List Bool → CompView × List ViewEvent
  | [] => (v, [])
  | b :: bs =>
    let (v1, e1) := handle_xdg_toplevel_commit v b
    let (v2, e2) := commit_sequence v1 bs
    (v2, e1 ++ e2)

/-- Concrete trace for the scene-tree invariant: a toplevel is created,
performs its initial commit, maps successfully, then unmaps. -/
def c2trace : List ViewSignal :=
  [ViewSignal.newToplevel 1, ViewSignal.committed true,
   ViewSignal.mapped 7 true, ViewSignal.unmapped]

/-- The view state c2trace ends in. -/
def c2view : CompView :=
  { surface := 1, x := 50, y := 50, mapped := false, sceneTree := some 7
    pendingConfigure := true, listenersActive := true }

/-- True when the trace contains a map signal. -/
def hasMapSignal (tr : List ViewSignal) : Bool :=
  tr.any fun s =>
    match s with
    | ViewSignal.mapped _ _ => true
    | _ => false

/-- Concrete trace reaching a mapped view: create, initial commit,
successful map. -/
def c2wfTrace : List ViewSignal :=
  [ViewSignal.newToplevel 1, ViewSignal.committed true, ViewSignal.mapped 7 true]

/-- The view state c2wfTrace ends in. -/
def c2mappedView : CompView :=
  { surface := 1, x := 50, y := 50, mapped := true, sceneTree := some 7
    pendingConfigure := true, listenersActive := true }

/-! ### Idempotent listener teardown (xdg_shell_handler.c, output_handler.c) -/

/-- The nine listener links of a comp_view together with the
listeners_active guard flag; a true link is registered in the engine
signal list. -/
structure ViewListenerState where
  listenersActive : Bool
  mapLinked : Bool
  unmapLinked : Bool
  commitLinked : Bool
  destroyLinked : Bool
  requestMoveLinked : Bool
  requestResizeLinked : Bool
  requestMaximizeLinked : Bool
  requestFullscreenLinked : Bool
  setTitleLinked : Bool
deriving DecidableEq

/-- view_remove_listeners: returns immediately unless listeners_active;
otherwise unlinks all nine listeners and clears the flag. -/
def view_remove_listeners (v : ViewListenerState) : ViewListenerState :=
  if !v.listenersActive then v
  else
    { listenersActive := false, mapLinked := false, unmapLinked := false
      commitLinked := false, destroyLinked := false, requestMoveLinked := false
      requestResizeLinked := false, requestMaximizeLinked := false
      requestFullscreenLinked := false, setTitleLinked := false }

/-- The three listener links of a comp_output with its guard flag. -/
structure OutputListenerState where
  listenersActive : Bool
  frameLinked : Bool
  requestStateLinked : Bool
  destroyLinked : Bool
deriving DecidableEq

/-- output_remove_listeners: returns immediately unless listeners_active;
otherwise unlinks frame, request_state and destroy, and clears the flag. -/
def output_remove_listeners (o : OutputListenerState) : OutputListenerState :=
  if !o.listenersActive then o
  else
    { listenersActive := false, frameLinked := false
      requestStateLinked := false, destroyLinked := false }

/-- Concrete already-torn-down view listener set. -/
def c7viewLS : ViewListenerState :=
  { listenersActive := false, mapLinked := false, unmapLinked := false
    commitLinked := false, destroyLinked := false, requestMoveLinked := false
    requestResizeLinked := false, requestMaximizeLinked := false
    requestFullscreenLinked := false, setTitleLinked := false }

/-- Concrete already-torn-down output listener set. -/
def c7outputLS : OutputListenerState :=
  { listenersActive := false, frameLinked := false
    requestStateLinked := false, destroyLinked := false }

/-! ### Keyboard focus (comp_view_focus, comp_seat_focus_view) -/

/-- A view as the focus code sees it: its wlr_surface identity, the
mapped flag, and the protocol activated state kept by the engine on the
toplevel. -/
structure FocusView where
  surface : Nat
  mapped : Bool
  activated : Bool
deriving DecidableEq

/-- Server state touched by focus transfer: the ordered view list (head
is the front, where wl_list_insert puts the most recent), and the seat
keyboard focused surface. -/
structure FocusState where
  views : List FocusView
  keyboardFocus : Option Nat
deriving DecidableEq

/-- Engine calls made during a focus transfer. -/
inductive SeatEvent where
  | keyboardEnter (surface : Nat)
  | keyboardClearFocus
  | setActivated (surface : Nat) (active : Bool)
  | raiseToTop (surface : Nat)
deriving DecidableEq

/-- wlr_xdg_toplevel_set_activated on the toplevel owning a surface:
updates the activated state of that view in the list. -/
def set_activated_on (vs : List FocusView) (s : Nat) (b : Bool) : List FocusView :=
  match vs with
  | [] => []
  | w :: ws =>
    (if w.surface = s then { w with activated := b } else w) :: set_activated_on ws s b

/-- wl_list_remove plus wl_list_insert at the head: moves the view with
the given surface to the front of the list. -/
def move_to_front (vs : List FocusView) (s : Nat) : List FocusView :=
  vs.filter (fun v => v.surface = s) ++ vs.filter (fun v => !(v.surface = s))

/-- comp_seat_focus_view: clears keyboard focus when the view is null or
unmapped, otherwise sends a keyboard enter (with current keys and
modifiers when a keyboard exists, empty state otherwise) to the view
surface. -/
def comp_seat_focus_view (st : FocusState) (varg : Option FocusView) :
    FocusState × List SeatEvent :=
  match varg with
  | none => ({ st with keyboardFocus := none }, [SeatEvent.keyboardClearFocus])
  | some v =>
    if !v.mapped then ({ st with keyboardFocus := none }, [SeatEvent.keyboardClearFocus])
    else ({ st with keyboardFocus := some v.surface }, [SeatEvent.keyboardEnter v.surface])

/-- comp_view_focus: returns immediately when the view is null or not
mapped; returns when the view surface already holds keyboard focus;
otherwise deactivates the toplevel of the previously focused surface,
raises the scene node, moves the view to the front of the view list,
sets activated on it, and delegates the keyboard enter to
comp_seat_focus_view. -/
def comp_view_focus (st : FocusState) (varg : Option FocusView) :
    FocusState × List SeatEvent :=
  match varg with
  | none => (st, [])
  | some v =>
    if !v.mapped then (st, [])
    else
      let newSurface := v.surface
      if st.keyboardFocus = some newSurface then (st, [])
      else
        let (st1, evs1) :=
          match st.keyboardFocus with
          | some p =>
            ({ st with views := set_activated_on st.views p false },
             [SeatEvent.setActivated p false])
          | none => (st, [])
        let st2 := { st1 with views := move_to_front st1.views newSurface }
        let st3 := { st2 with views := set_activated_on st2.views newSurface true }
        let (st4, evs4) := comp_seat_focus_view st3 (some v)
        (st4, evs1 ++ [SeatEvent.raiseToTop newSurface,
                       SeatEvent.setActivated newSurface true] ++ evs4)

/-- Counts the keyboard-enter events in a seat event list. -/
def enterCount (evs : List SeatEvent) : Nat :=
  evs.countP fun e =>
    match e with
    | SeatEvent.keyboardEnter _ => true
    | _ => false

/-- Number of views in the list whose surface holds keyboard focus. -/
def focusedViewCount (st : FocusState) : Nat :=
  st.views.countP fun v =>
    match st.keyboardFocus with
    | some k => v.surface == k
    | none => false

/-- Protocol activated state of the view owning a surface, none when no
view in the list owns it. -/
def activatedOf (vs : List FocusView) (s : Nat) : Option Bool :=
  (vs.find? fun w => w.surface == s).map FocusView.activated

/-- Concrete state for the focus claims: one mapped view with surface 1,
currently keyboard focused. -/
def c3state : FocusState :=
  { views := [{ surface := 1, mapped := true, activated := true }]
    keyboardFocus := some 1 }

/-- Mapped, activated, focused view A. -/
def c3viewA : FocusView := { surface := 1, mapped := true, activated := true }

/-- Mapped, not yet activated view B. -/
def c3viewB : FocusView := { surface := 2, mapped := true, activated := false }

/-- An unmapped view. -/
def c3viewU : FocusView := { surface := 3, mapped := false, activated := false }

/-- Two mapped views, A focused, for the focus-transfer witness. -/
def c3pair : FocusState :=
  { views := [c3viewA, c3viewB], keyboardFocus := some 1 }

/-! ### Pointer motion (comp_seat_send_pointer_motion) -/

/-- The seat pointer state: the stored cursor position and the pointer
focused surface. -/
structure PointerState where
  cursorX : Int
  cursorY : Int
  pointerFocus : Option Nat
deriving DecidableEq

/-- Engine calls made while routing pointer motion. -/
inductive PointerEvent where
  | enter (surface : Nat)
  | motion (surface : Nat)
  | clearFocus
deriving DecidableEq

/-- comp_seat_send_pointer_motion: stores the cursor position, hit-tests
the scene for the view under the cursor (the hit test is the engine
scene query, supplied as a function), sends a pointer enter first when
the hit surface differs from the pointer focused surface, then motion;
clears pointer focus when no mapped view is hit. -/
def comp_seat_send_pointer_motion (hitTest : Int → Int → Option FocusView)
    (st : PointerState) (x y : Int) : PointerState × List PointerEvent :=
  let st0 := { st with cursorX := x, cursorY := y }
  match hitTest x y with
  | some v =>
    if v.mapped then
      let evs :=
        if some v.surface ≠ st0.pointerFocus then [PointerEvent.enter v.surface] else []
      ({ st0 with pointerFocus := some v.surface }, evs ++ [PointerEvent.motion v.surface])
    else ({ st0 with pointerFocus := none }, [PointerEvent.clearFocus])
  | none => ({ st0 with pointerFocus := none }, [PointerEvent.clearFocus])

/-- A sequence of pointer-motion calls, concatenating the events. -/
def pointer_motion_run (hitTest : Int → Int → Option FocusView) (st : PointerState) :
    List (Int × Int) → PointerState × List PointerEvent
  | [] => (st, [])
  | (x, y) :: rest =>
    ((pointer_motion_run hitTest (comp_seat_send_pointer_motion hitTest st x y).1 rest).1,
     (comp_seat_send_pointer_motion hitTest st x y).2 ++
       (pointer_motion_run hitTest (comp_seat_send_pointer_motion hitTest st x y).1 rest).2)

/-- Concrete scene hit test with window A (surface 1) on x in [0, 10),
window B (surface 2) on x in [10, 20), nothing beyond. -/
def c4hitTest : Int → Int → Option FocusView := fun x _ =>
  if x < 10 then some { surface := 1, mapped := true, activated := false }
  else if x < 20 then some { surface := 2, mapped := true, activated := false }
  else none

/-- Concrete pointer path crossing from window A to window B and then
leaving both. -/
def c4moves : List (Int × Int) := [(0, 0), (5, 0), (15, 0), (25, 0)]

/-- Pointer state before any motion: no pointer focus. -/
def c4start : PointerState := { cursorX := 0, cursorY := 0, pointerFocus := none }

/-! ### Frame cycle (output_handler.c) -/

/-- Observable engine calls of one frame cycle: a scene-to-output commit
(recording whether the engine reported success) and the frame-done
timestamp notification to all surfaces. -/
inductive FrameEv where
  | commitOk
  | commitFail
  | frameDone
deriving DecidableEq

/-- handle_output_frame: when the scene and the scene output exist,
commits the scene to the output (ignoring the result) and immediately
sends the frame-done notification. -/
def handle_output_frame (sceneOk sceneOutputOk commitRes : Bool) : List FrameEv :=
  if !sceneOk || !sceneOutputOk then []
  else [if commitRes then FrameEv.commitOk else FrameEv.commitFail, FrameEv.frameDone]

/-- comp_output_render_frame: when the output, its scene output, its
wlr_output and the scene exist, commits the scene to the output and, if
the commit succeeded, sends the frame-done notification. -/
def comp_output_render_frame (outputOk sceneOutputOk wlrOutputOk sceneOk commitRes : Bool) :
    List FrameEv :=
  if !outputOk || !sceneOutputOk || !wlrOutputOk then []
  else if !sceneOk then []
  else if commitRes then [FrameEv.commitOk, FrameEv.frameDone]
  else [FrameEv.commitFail]

/-- Every successful commit in the event list is immediately followed by
a frame-done notification. -/
def commitPaired : List FrameEv → Bool
  | [] => true
  | FrameEv.commitOk :: rest =>
    match rest with
    | FrameEv.frameDone :: _ => commitPaired rest
    | _ => false
  | _ :: rest => commitPaired rest

/-! ### Size request round-trip (compositor_core.c) -/

/-- View geometry state: position, the xdg surface current window
geometry, the surface current buffer size, and the pending configure
(size and fullscreen) to be sent to the client. -/
structure ViewGeom where
  x : Int
  y : Int
  geomW : Nat
  geomH : Nat
  surfaceW : Nat
  surfaceH : Nat
  pendingW : Nat
  pendingH : Nat
  pendingFullscreen : Bool
deriving DecidableEq

/-- comp_view_request_size: schedules a configure proposing the given
size and fullscreen state. -/
def comp_view_request_size (v : ViewGeom) (w h : Nat) : ViewGeom :=
  { v with pendingW := w, pendingH := h, pendingFullscreen := true }

/-- Modelled from the spec: the acknowledging client commit of the
configure handshake (the client is outside this repository).  The spec
glossary defines the handshake as the server proposing geometry and
the client acknowledging via its next commit; a client honoring a
proposed dimension adopts it, while a proposed dimension of zero means
the client chooses its own (a window geometry is never zero). -/
def client_ack_commit (v : ViewGeom) (chosenW chosenH : Nat) : ViewGeom :=
  let w := if v.pendingW > 0 then v.pendingW else chosenW
  let h := if v.pendingH > 0 then v.pendingH else chosenH
  { v with geomW := w, geomH := h, surfaceW := w, surfaceH := h }

/-- comp_view_get_geometry: returns the stored position and the current
xdg window geometry, falling back to the surface buffer size for a
dimension when the geometry reports it as not positive. -/
def comp_view_get_geometry (v : ViewGeom) : Int × Int × Nat × Nat :=
  (v.x, v.y,
   if v.geomW > 0 then v.geomW else v.surfaceW,
   if v.geomH > 0 then v.geomH else v.surfaceH)

/-- Concrete mapped view for the round-trip claims: the client last
committed a 640x480 window. -/
def c8view : ViewGeom :=
  { x := 50, y := 50, geomW := 640, geomH := 480, surfaceW := 640, surfaceH := 480
    pendingW := 0, pendingH := 0, pendingFullscreen := false }

/-! ### Host view list (CompositorWrapper::viewCallback) -/

/-- Qt signals the wrapper emits towards the host UI. -/
inductive QtSignal where
  | viewsChanged
  | viewAdded (index : Nat)
  | viewRemoved (index : Nat)
deriving DecidableEq

/-- QList::indexOf: index of the first occurrence, none when absent. -/
def listIndexOf (l : List Nat) (v : Nat) : Option Nat :=
  match l with
  | [] => none
  | a :: as => if a = v then some 0 else (listIndexOf as v).map (· + 1)

/-- CompositorWrapper::viewCallback: on an added notification, appends
the view handle only when not already present and emits viewsChanged
plus viewAdded with its index; on a removed notification, removes the
handle at its index only when present and emits viewsChanged plus
viewRemoved.  View handles are modelled as numbers. -/
def viewCallback (views : List Nat) (v : Nat) (added : Bool) :
    List Nat × List QtSignal :=
  if added then
    if views.contains v then (views, [])
    else (views ++ [v], [QtSignal.viewsChanged, QtSignal.viewAdded views.length])
  else
    match listIndexOf views v with
    | some i => (views.eraseIdx i, [QtSignal.viewsChanged, QtSignal.viewRemoved i])
    | none => (views, [])

/-- A sequence of view callbacks, threading the host list. -/
def viewCallback_run (views : List Nat) : List (Nat × Bool) → List Nat
  | [] => views
  | (v, b) :: rest => viewCallback_run (viewCallback views v b).1 rest

/-! ## Theorems -/

/-- C5: in every frame cycle, whether driven by the engine frame signal
(handle_output_frame) or by the manual comp_output_render_frame entry
point, a successful commit of the scene to the output is immediately
followed by the frame-done notification, for every combination of
guard and commit outcomes. -/
theorem frame_commit_always_paired_with_done :
    ∀ sceneOk sceneOutputOk commitRes outputOk wlrOutputOk : Bool,
      commitPaired (handle_output_frame sceneOk sceneOutputOk commitRes) = true ∧
      commitPaired
        (comp_output_render_frame outputOk sceneOutputOk wlrOutputOk sceneOk commitRes)
        = true := by
  decide

/-- C7: listener teardown is idempotent for views and outputs: a second
invocation on a state whose listeners-active flag is already false is
the identity, and remove-listeners composed with itself equals a single
invocation. -/
theorem listener_teardown_idempotent (v : ViewListenerState) (o : OutputListenerState) :
    view_remove_listeners (view_remove_listeners v) = view_remove_listeners v ∧
    (v.listenersActive = false → view_remove_listeners v = v) ∧
    output_remove_listeners (output_remove_listeners o) = output_remove_listeners o ∧
    (o.listenersActive = false → output_remove_listeners o = o) := by
  refine ⟨?_, ?_, ?_, ?_⟩
  · cases hv : v.listenersActive <;> simp [view_remove_listeners, hv]
  · intro h; simp [view_remove_listeners, h]
  · cases ho : o.listenersActive <;> simp [output_remove_listeners, ho]
  · intro h; simp [output_remove_listeners, h]

/-- Witness for C7 at a concrete already-torn-down view and output. -/
theorem listener_teardown_idempotent_witness :
    c7viewLS.listenersActive = false ∧ c7outputLS.listenersActive = false ∧
    (view_remove_listeners (view_remove_listeners c7viewLS)
        = view_remove_listeners c7viewLS ∧
     (c7viewLS.listenersActive = false → view_remove_listeners c7viewLS = c7viewLS) ∧
     output_remove_listeners (output_remove_listeners c7outputLS)
        = output_remove_listeners c7outputLS ∧
     (c7outputLS.listenersActive = false →
        output_remove_listeners c7outputLS = c7outputLS)) :=
  ⟨rfl, rfl, listener_teardown_idempotent c7viewLS c7outputLS⟩

theorem capture_copy_path_size_le (b : PixelBuffer) (s h : Nat) (m : Bool) :
    b.bufferSize ≤ (capture_copy_path b s h m).bufferSize := by
  unfold capture_copy_path
  dsimp only
  split
  · next hlt => exact Nat.le_of_lt hlt
  · exact Nat.le_refl _

theorem capture_copy_path_eq_of_fits (b : PixelBuffer) (s h : Nat) (m : Bool)
    (hfit : (s * h) % 2 ^ 32 ≤ b.bufferSize) : capture_copy_path b s h m = b := by
  unfold capture_copy_path
  dsimp only
  split
  · next hlt => exact absurd hlt (Nat.not_lt.mpr hfit)
  · rfl

theorem capture_frame_size_le (ty : RenderBackendType) (b : PixelBuffer)
    (inp : CaptureInput) :
    b.bufferSize ≤ ((render_backend_capture_frame ty b inp).1).bufferSize := by
  unfold render_backend_capture_frame
  cases ty <;>
    cases hb : inp.buildStateOk <;>
    cases hp : inp.bufferPresent <;>
    cases hd : inp.dataPtrOk <;>
    cases hdm : inp.dmabufOk <;>
    simp [hb, hp, hd, hdm, capture_copy_path_size_le]

theorem capture_frame_eq_of_fits (ty : RenderBackendType) (b : PixelBuffer)
    (inp : CaptureInput) (hfit : (inp.bufStride * inp.height) % 2 ^ 32 ≤ b.bufferSize) :
    (render_backend_capture_frame ty b inp).1 = b := by
  unfold render_backend_capture_frame
  cases ty <;>
    cases hb : inp.buildStateOk <;>
    cases hp : inp.bufferPresent <;>
    cases hd : inp.dataPtrOk <;>
    cases hdm : inp.dmabufOk <;>
    simp [hb, hp, hd, hdm, capture_copy_path_eq_of_fits _ _ _ _ hfit]

theorem capture_run_size_le (caps : List (RenderBackendType × CaptureInput))
    (b : PixelBuffer) : b.bufferSize ≤ (capture_run b caps).bufferSize := by
  induction caps generalizing b with
  | nil => exact Nat.le_refl _
  | cons c rest ih =>
    obtain ⟨ty, inp⟩ := c
    exact Nat.le_trans (capture_frame_size_le ty b inp) (ih _)

/-- C9: the reusable pixel buffer never shrinks: one capture call never
decreases the recorded buffer size, a capture whose required size
(stride times height, as a uint32) fits in the current buffer leaves
the buffer state untouched (same size, same allocation, no realloc),
and across any sequence of captures the size is monotonically
non-decreasing. -/
theorem pixel_buffer_monotone (ty : RenderBackendType) (b : PixelBuffer)
    (inp : CaptureInput) (caps : List (RenderBackendType × CaptureInput)) :
    b.bufferSize ≤ ((render_backend_capture_frame ty b inp).1).bufferSize ∧
    ((inp.bufStride * inp.height) % 2 ^ 32 ≤ b.bufferSize →
      (render_backend_capture_frame ty b inp).1 = b) ∧
    b.bufferSize ≤ (capture_run b caps).bufferSize :=
  ⟨capture_frame_size_le ty b inp,
   fun hfit => capture_frame_eq_of_fits ty b inp hfit,
   capture_run_size_le caps b⟩

/-- Witness for C9: a 4-byte buffer, a capture needing 2 bytes. -/
theorem pixel_buffer_monotone_witness :
    ((1 * 2) % 2 ^ 32 ≤ (4 : Nat) ∧
     ({ bufferSize := 4, allocId := 0, allocated := true } : PixelBuffer).bufferSize ≤
       ((render_backend_capture_frame RenderBackendType.software
          { bufferSize := 4, allocId := 0, allocated := true }
          { buildStateOk := true, bufferPresent := true, dataPtrOk := true
            bufStride := 1, height := 2, mallocOk := true, dmabufOk := false }).1).bufferSize) ∧
    (render_backend_capture_frame RenderBackendType.software
        { bufferSize := 4, allocId := 0, allocated := true }
        { buildStateOk := true, bufferPresent := true, dataPtrOk := true
          bufStride := 1, height := 2, mallocOk := true, dmabufOk := false }).1
      = { bufferSize := 4, allocId := 0, allocated := true } := by
  have h := pixel_buffer_monotone RenderBackendType.software
    { bufferSize := 4, allocId := 0, allocated := true }
    { buildStateOk := true, bufferPresent := true, dataPtrOk := true
      bufStride := 1, height := 2, mallocOk := true, dmabufOk := false } []
  exact ⟨⟨by decide, h.1⟩, h.2.1 (by decide)⟩

theorem commit_no_configure_of_pending (v : CompView) (b : Bool)
    (hp : v.pendingConfigure = true) :
    configureCount (handle_xdg_toplevel_commit v b).2 = 0 ∧
    (handle_xdg_toplevel_commit v b).1 = v := by
  unfold handle_xdg_toplevel_commit
  cases hm : v.mapped <;> simp [hp, hm, configureCount]

theorem commit_sequence_no_configure (bs : List Bool) (v : CompView)
    (hp : v.pendingConfigure = true) :
    configureCount (commit_sequence v bs).2 = 0 := by
  induction bs generalizing v with
  | nil => simp [commit_sequence, configureCount]
  | cons b rest ih =>
    obtain ⟨h0, hsame⟩ := commit_no_configure_of_pending v b hp
    unfold commit_sequence
    simp only [configureCount] at *
    rw [List.countP_append, h0, hsame, ih v hp]

/-- C1: the first configure is sent exactly once: a commit carrying the
initial-commit marker while pending_configure is false emits exactly one
configure (640x480, fullscreen, activated) and sets pending_configure;
after that, any sequence of further commits, whatever their
initial-commit markers, emits no configure at all. -/
theorem initial_configure_sent_exactly_once (v : CompView)
    (h : v.pendingConfigure = false) (bs : List Bool) :
    configureCount (handle_xdg_toplevel_commit v true).2 = 1 ∧
    (handle_xdg_toplevel_commit v true).1.pendingConfigure = true ∧
    configureCount (commit_sequence (handle_xdg_toplevel_commit v true).1 bs).2 = 0 := by
  refine ⟨?_, ?_, ?_⟩
  · unfold handle_xdg_toplevel_commit
    cases hm : v.mapped <;> simp [h, hm, configureCount]
  · unfold handle_xdg_toplevel_commit
    cases hm : v.mapped <;> simp [h, hm]
  · apply commit_sequence_no_configure
    unfold handle_xdg_toplevel_commit
    cases hm : v.mapped <;> simp [h, hm]

/-- Witness for C1: a fresh view, first commit with the marker, then
two further commits. -/
theorem initial_configure_sent_exactly_once_witness :
    (fresh_view 1).pendingConfigure = false ∧
    (configureCount (handle_xdg_toplevel_commit (fresh_view 1) true).2 = 1 ∧
     (handle_xdg_toplevel_commit (fresh_view 1) true).1.pendingConfigure = true ∧
     configureCount
       (commit_sequence (handle_xdg_toplevel_commit (fresh_view 1) true).1
         [false, true]).2 = 0) :=
  ⟨rfl, initial_configure_sent_exactly_once (fresh_view 1) rfl [false, true]⟩

theorem init_backend_false_not_hw (env : RenderEnv) (s : ServerInit)
    (h : comp_server_init_backend_with_renderer false env = some s) :
    s.useHardwareRendering = false := by
  unfold comp_server_init_backend_with_renderer at h
  dsimp only at h
  simp only [Bool.false_and, if_neg (Bool.false_ne_true)] at h
  cases hc : render_backend_create RenderBackendType.software env with
  | none => rw [hc] at h; exact absurd h (by simp)
  | some rb =>
    rw [hc] at h
    dsimp only at h
    cases hi : render_backend_init_renderer rb env with
    | none => rw [hi] at h; exact absurd h (by simp)
    | some rb2 =>
      rw [hi] at h
      dsimp only at h
      by_cases h1 : env.sceneOk = true
      all_goals by_cases h2 : env.outputLayoutOk = true
      all_goals by_cases h3 : env.compositorOk = true
      all_goals by_cases h4 : env.xdgShellOk = true
      all_goals by_cases h5 : env.seatOk = true
      all_goals simp [h1, h2, h3, h4, h5] at h
      rw [← h]

/-- C6: when hardware rendering is requested but the capability probe
fails, comp_server_init_backend_with_renderer behaves exactly as if
software had been requested (so it never fails solely because hardware
was unavailable), and whenever it succeeds the effective mode it reports
is software. -/
theorem init_backend_downgrades_to_software (env : RenderEnv)
    (h : render_backend_hardware_available env = false) :
    comp_server_init_backend_with_renderer true env
      = comp_server_init_backend_with_renderer false env ∧
    Option.map comp_server_is_hardware_rendering
      (comp_server_init_backend_with_renderer true env) ≠ some true := by
  have heq : comp_server_init_backend_with_renderer true env
      = comp_server_init_backend_with_renderer false env := by
    unfold comp_server_init_backend_with_renderer
    simp [h]
  refine ⟨heq, ?_⟩
  rw [heq]
  cases hres : comp_server_init_backend_with_renderer false env with
  | none => simp
  | some s =>
    have := init_backend_false_not_hw env s hres
    simp [comp_server_is_hardware_rendering, this]

/-- Witness for C6: hardware requested in an otherwise healthy
environment compiled without GLES2 support. -/
theorem init_backend_downgrades_to_software_witness :
    render_backend_hardware_available envNoHw = false ∧
    (comp_server_init_backend_with_renderer true envNoHw
       = comp_server_init_backend_with_renderer false envNoHw ∧
     Option.map comp_server_is_hardware_rendering
       (comp_server_init_backend_with_renderer true envNoHw) ≠ some true) :=
  ⟨rfl, init_backend_downgrades_to_software envNoHw rfl⟩

theorem listIndexOf_eq_none_of_not_mem (l : List Nat) (v : Nat) (h : v ∉ l) :
    listIndexOf l v = none := by
  induction l with
  | nil => rfl
  | cons a as ih =>
    have ha : ¬(a = v) := fun he => h (he ▸ List.mem_cons_self a as)
    have hm : v ∉ as := fun hm => h (List.mem_cons_of_mem _ hm)
    simp [listIndexOf, ha, ih hm]

theorem viewCallback_preserves_nodup (views : List Nat) (u : Nat) (b : Bool)
    (hnd : views.Nodup) : ((viewCallback views u b).1).Nodup := by
  unfold viewCallback
  cases b with
  | false =>
    simp only [if_neg (Bool.false_ne_true)]
    cases hidx : listIndexOf views u with
    | none => exact hnd
    | some i => exact List.Nodup.sublist (views.eraseIdx_sublist i) hnd
  | true =>
    simp only [if_pos rfl]
    by_cases hm : u ∈ views
    · simp [hm]; exact hnd
    · simp [hm, List.nodup_append, hnd]

theorem viewCallback_run_nodup (ops : List (Nat × Bool)) (views : List Nat)
    (hnd : views.Nodup) : (viewCallback_run views ops).Nodup := by
  induction ops generalizing views with
  | nil => exact hnd
  | cons op rest ih =>
    obtain ⟨u, b⟩ := op
    exact ih _ (viewCallback_preserves_nodup views u b hnd)

/-- C10: the host view list stays duplicate-free: an added notification
for a handle already present leaves the list unchanged and emits no Qt
signal, a removed notification for an absent handle leaves the list
unchanged and emits no Qt signal, every callback preserves
duplicate-freedom, and after any callback sequence from the empty list
each handle appears at most once. -/
theorem host_view_list_consistent (views : List Nat) (v w u : Nat) (b : Bool)
    (ops : List (Nat × Bool))
    (hv : v ∈ views) (hw : w ∉ views) (hnd : views.Nodup) :
    viewCallback views v true = (views, []) ∧
    viewCallback views w false = (views, []) ∧
    ((viewCallback views u b).1).Nodup ∧
    (viewCallback_run [] ops).Nodup := by
  refine ⟨?_, ?_, viewCallback_preserves_nodup views u b hnd,
          viewCallback_run_nodup ops [] List.nodup_nil⟩
  · simp [viewCallback, hv]
  · simp [viewCallback, listIndexOf_eq_none_of_not_mem views w hw]

/-- Witness for C10: list [1, 2], re-adding 1, removing absent 5, and a
concrete callback sequence. -/
theorem host_view_list_consistent_witness :
    ((1 : Nat) ∈ [1, 2] ∧ (5 : Nat) ∉ [1, 2] ∧ ([1, 2] : List Nat).Nodup) ∧
    (viewCallback [1, 2] 1 true = ([1, 2], []) ∧
     viewCallback [1, 2] 5 false = ([1, 2], []) ∧
     ((viewCallback [1, 2] 2 true).1).Nodup ∧
     (viewCallback_run [] [(1, true), (2, true), (1, false), (3, false)]).Nodup) :=
  ⟨⟨by decide, by decide, by decide⟩,
   host_view_list_consistent [1, 2] 1 5 2 true [(1, true), (2, true), (1, false), (3, false)]
     (by decide) (by decide) (by decide)⟩

/-- C8 counterexample: requesting size 0x0 (a protocol-legal request
meaning the client picks its own size) does not round-trip: the client
acknowledges by choosing 640x480, and comp_view_get_geometry reports
640x480, not the requested 0x0.  The claim quantifies over every
requested width and height, so it fails here. -/
theorem request_size_zero_not_round_tripped :
    comp_view_get_geometry (client_ack_commit (comp_view_request_size c8view 0 0) 640 480)
      = (50, 50, 640, 480) ∧
    comp_view_get_geometry (client_ack_commit (comp_view_request_size c8view 0 0) 640 480)
      ≠ (50, 50, 0, 0) := by
  decide

/-- C8 amended: for every positive requested width and height, invoking
comp_view_request_size and querying comp_view_get_geometry after the
acknowledging client commit yields exactly the requested size, whatever
size the client would otherwise have chosen. -/
theorem request_size_round_trip (v : ViewGeom) (w h cw ch : Nat)
    (hw : 0 < w) (hh : 0 < h) :
    comp_view_get_geometry (client_ack_commit (comp_view_request_size v w h) cw ch)
      = (v.x, v.y, w, h) := by
  simp [comp_view_request_size, client_ack_commit, comp_view_get_geometry, hw, hh]

/-- Witness for C8: requesting 800x600 on a 640x480 view. -/
theorem request_size_round_trip_witness :
    ((0 : Nat) < 800 ∧ (0 : Nat) < 600) ∧
    comp_view_get_geometry (client_ack_commit (comp_view_request_size c8view 800 600) 1024 768)
      = (50, 50, 800, 600) :=
  ⟨⟨by decide, by decide⟩,
   request_size_round_trip c8view 800 600 1024 768 (by decide) (by decide)⟩

theorem commit_preserves_map_scene (v : CompView) (b : Bool) :
    (handle_xdg_toplevel_commit v b).1.mapped = v.mapped ∧
    (handle_xdg_toplevel_commit v b).1.sceneTree = v.sceneTree := by
  unfold handle_xdg_toplevel_commit
  cases hp : v.pendingConfigure <;> cases b <;> simp [hp]

theorem lifecycle_scene_inv (tr : List ViewSignal) :
    ∀ (st : Option CompView) (pm cm : Bool),
      viewTraceWFAux true pm cm tr = true →
      (∀ w, st = some w → w.mapped = true → pm = true ∧ w.sceneTree ≠ none) →
      ∀ v, (view_lifecycle_exec st tr).1 = some v → v.mapped = true → v.sceneTree ≠ none := by
  induction tr with
  | nil =>
    intro st pm cm _ hinv v hv hm
    exact ((hinv v hv) hm).2
  | cons sig rest ih =>
    intro st pm cm hwf hinv v hv hm
    have hv2 : (view_lifecycle_exec (view_lifecycle_step st sig).1 rest).1 = some v := hv
    cases st with
    | none =>
      cases sig with
      | newToplevel s =>
        simp [viewTraceWFAux] at hwf
      | mapped id ok =>
        simp only [viewTraceWFAux, Bool.and_eq_true, Bool.not_eq_true'] at hwf
        exact ih _ true cm hwf.2 (by simp [view_lifecycle_step]) v hv2 hm
      | unmapped =>
        simp only [viewTraceWFAux, Bool.and_eq_true] at hwf
        exact ih _ false cm hwf.2 (by simp [view_lifecycle_step]) v hv2 hm
      | committed init =>
        simp only [viewTraceWFAux, Bool.and_eq_true] at hwf
        exact ih _ pm true hwf.2 (by simp [view_lifecycle_step]) v hv2 hm
      | destroyed =>
        simp only [viewTraceWFAux] at hwf
        rw [List.isEmpty_iff] at hwf
        subst hwf
        simp [view_lifecycle_step, view_lifecycle_exec] at hv2
    | some w =>
      cases sig with
      | newToplevel s =>
        simp [viewTraceWFAux] at hwf
      | mapped id ok =>
        simp only [viewTraceWFAux, Bool.and_eq_true, Bool.not_eq_true'] at hwf
        obtain ⟨⟨hpm, hcm⟩, hwfr⟩ := hwf
        have hwm : w.mapped = false := by
          cases hwm : w.mapped with
          | false => rfl
          | true => exact absurd ((hinv w rfl) hwm).1 (by simp [hpm])
        cases ok with
        | true =>
          refine ih _ true cm hwfr ?_ v hv2 hm
          intro u hu hum
          simp only [view_lifecycle_step, handle_xdg_toplevel_map, if_pos rfl,
            Option.some_inj] at hu
          refine ⟨rfl, ?_⟩
          rw [← hu]
          simp
        | false =>
          refine ih _ true cm hwfr ?_ v hv2 hm
          intro u hu hum
          simp only [view_lifecycle_step, handle_xdg_toplevel_map,
            Option.some_inj] at hu
          rw [if_neg (by simp)] at hu
          rw [← hu] at hum
          simp at hum
          rw [hwm] at hum
          exact absurd hum (by simp)
      | unmapped =>
        simp only [viewTraceWFAux, Bool.and_eq_true] at hwf
        refine ih _ false cm hwf.2 ?_ v hv2 hm
        intro u hu hum
        simp only [view_lifecycle_step, handle_xdg_toplevel_unmap,
          Option.some_inj] at hu
        rw [← hu] at hum
        simp at hum
      | committed init =>
        simp only [viewTraceWFAux, Bool.and_eq_true] at hwf
        refine ih _ pm true hwf.2 ?_ v hv2 hm
        intro u hu hum
        simp only [view_lifecycle_step, Option.some_inj] at hu
        obtain ⟨hmp, hsc⟩ := commit_preserves_map_scene w init
        rw [← hu, hmp] at hum
        rw [← hu, hsc]
        exact hinv w rfl hum
      | destroyed =>
        simp only [viewTraceWFAux] at hwf
        rw [List.isEmpty_iff] at hwf
        subst hwf
        simp [view_lifecycle_step, view_lifecycle_exec] at hv2

theorem lifecycle_no_map_scene_none (tr : List ViewSignal) :
    ∀ (st : Option CompView),
      hasMapSignal tr = false →
      (∀ w, st = some w → w.sceneTree = none) →
      ∀ v, (view_lifecycle_exec st tr).1 = some v → v.sceneTree = none := by
  induction tr with
  | nil =>
    intro st _ hinv v hv
    exact hinv v hv
  | cons sig rest ih =>
    intro st hnm hinv v hv
    have hv2 : (view_lifecycle_exec (view_lifecycle_step st sig).1 rest).1 = some v := hv
    have hnm1 : hasMapSignal rest = false := by
      unfold hasMapSignal at hnm ⊢
      simp only [List.any_cons, Bool.or_eq_false_iff] at hnm
      exact hnm.2
    cases st with
    | none =>
      cases sig with
      | newToplevel s =>
        refine ih _ hnm1 ?_ v hv2
        simp [view_lifecycle_step, fresh_view]
      | mapped id ok =>
        unfold hasMapSignal at hnm
        simp at hnm
      | unmapped => exact ih _ hnm1 (by simp [view_lifecycle_step]) v hv2
      | committed init => exact ih _ hnm1 (by simp [view_lifecycle_step]) v hv2
      | destroyed => exact ih _ hnm1 (by simp [view_lifecycle_step]) v hv2
    | some w =>
      cases sig with
      | newToplevel s =>
        refine ih _ hnm1 ?_ v hv2
        intro u hu
        simp only [view_lifecycle_step, Option.some_inj] at hu
        rw [← hu]
        exact hinv w rfl
      | mapped id ok =>
        unfold hasMapSignal at hnm
        simp at hnm
      | unmapped =>
        refine ih _ hnm1 ?_ v hv2
        intro u hu
        simp only [view_lifecycle_step, handle_xdg_toplevel_unmap,
          Option.some_inj] at hu
        rw [← hu]
        simp [hinv w rfl]
      | committed init =>
        refine ih _ hnm1 ?_ v hv2
        intro u hu
        simp only [view_lifecycle_step, Option.some_inj] at hu
        rw [← hu, (commit_preserves_map_scene w init).2]
        exact hinv w rfl
      | destroyed => exact ih _ hnm1 (by simp [view_lifecycle_step]) v hv2

/-- C2 counterexample: after the wellformed signal sequence new-toplevel,
initial commit, successful map, unmap, the view state has mapped = false
while the scene-tree handle is still non-null (the unmap handler does
not clear it), refuting the claimed if-and-only-if. -/
theorem scene_tree_not_cleared_on_unmap :
    viewTraceWF c2trace = true ∧
    (view_lifecycle_exec none c2trace).1 = some c2view ∧
    c2view.mapped = false ∧ c2view.sceneTree ≠ none := by
  decide

/-- C2 amended: along every wellformed signal sequence, a mapped view
has a non-null scene-tree handle, and the handle stays null until the
first map signal; but after unmap the mapped flag is cleared while the
handle field keeps its last value, so non-null only implies that a map
happened, not that the view is currently mapped. -/
theorem scene_tree_of_mapped (tr : List ViewSignal) (hwf : viewTraceWF tr = true)
    (v : CompView) (hv : (view_lifecycle_exec none tr).1 = some v) :
    (v.mapped = true → v.sceneTree ≠ none) ∧
    (hasMapSignal tr = false → v.sceneTree = none) := by
  constructor
  · intro hm
    cases tr with
    | nil => simp [view_lifecycle_exec] at hv
    | cons sig rest =>
      have hv2 : (view_lifecycle_exec (view_lifecycle_step none sig).1 rest).1 = some v := hv
      cases sig with
      | newToplevel s =>
        unfold viewTraceWF at hwf
        simp only [viewTraceWFAux] at hwf
        refine lifecycle_scene_inv rest _ false false hwf ?_ v hv2 hm
        intro w hw hwm
        simp only [view_lifecycle_step, Option.some_inj] at hw
        rw [← hw] at hwm
        simp [fresh_view] at hwm
      | mapped id ok => unfold viewTraceWF at hwf; simp [viewTraceWFAux] at hwf
      | unmapped => unfold viewTraceWF at hwf; simp [viewTraceWFAux] at hwf
      | committed init => unfold viewTraceWF at hwf; simp [viewTraceWFAux] at hwf
      | destroyed => unfold viewTraceWF at hwf; simp [viewTraceWFAux] at hwf
  · intro hnm
    exact lifecycle_no_map_scene_none tr none hnm (by simp) v hv

theorem pointer_run_motion_has_enter (moves : List (Int × Int)) :
    ∀ (hitTest : Int → Int → Option FocusView) (st : PointerState) (s : Nat)
      (pre post : List PointerEvent),
      (pointer_motion_run hitTest st moves).2 = pre ++ PointerEvent.motion s :: post →
      PointerEvent.enter s ∈ pre ∨ st.pointerFocus = some s := by
  induction moves with
  | nil =>
    intro hitTest st s pre post h
    simp [pointer_motion_run] at h
  | cons m rest ih =>
    intro hitTest st s pre post h
    obtain ⟨x, y⟩ := m
    have hsp : (comp_seat_send_pointer_motion hitTest st x y).2 ++
        (pointer_motion_run hitTest (comp_seat_send_pointer_motion hitTest st x y).1 rest).2
        = pre ++ PointerEvent.motion s :: post := h
    cases hht : hitTest x y with
    | none =>
      simp only [comp_seat_send_pointer_motion, hht] at hsp
      cases pre with
      | nil => simp at hsp
      | cons a pre2 =>
        simp only [List.cons_append, List.nil_append, List.cons.injEq] at hsp
        rcases ih hitTest _ s pre2 post hsp.2 with hin | hfoc
        · exact Or.inl (List.mem_cons_of_mem _ hin)
        · simp [comp_seat_send_pointer_motion, hht] at hfoc
    | some v =>
      cases hvm : v.mapped with
      | false =>
        simp only [comp_seat_send_pointer_motion, hht, hvm, Bool.false_eq_true,
          if_false] at hsp
        cases pre with
        | nil => simp at hsp
        | cons a pre2 =>
          simp only [List.cons_append, List.nil_append, List.cons.injEq] at hsp
          rcases ih hitTest _ s pre2 post hsp.2 with hin | hfoc
          · exact Or.inl (List.mem_cons_of_mem _ hin)
          · simp [comp_seat_send_pointer_motion, hht, hvm] at hfoc
      | true =>
        by_cases hfo : some v.surface = st.pointerFocus
        · simp only [comp_seat_send_pointer_motion, hht, hvm, if_true, ne_eq, hfo,
            not_true_eq_false, if_false, List.nil_append] at hsp
          cases pre with
          | nil =>
            simp only [List.cons_append, List.nil_append, List.cons.injEq,
              PointerEvent.motion.injEq] at hsp
            exact Or.inr (by rw [← hfo, hsp.1])
          | cons a pre2 =>
            simp only [List.cons_append, List.nil_append, List.cons.injEq] at hsp
            rcases ih hitTest _ s pre2 post hsp.2 with hin | hfoc
            · exact Or.inl (List.mem_cons_of_mem _ hin)
            · exact Or.inr (by simpa using hfoc)
        · simp only [comp_seat_send_pointer_motion, hht, hvm, if_true, ne_eq, hfo,
            not_false_iff, if_true, List.cons_append, List.nil_append] at hsp
          cases pre with
          | nil => simp at hsp
          | cons a pre2 =>
            simp only [List.cons_append, List.cons.injEq] at hsp
            obtain ⟨ha, hsp2⟩ := hsp
            cases pre2 with
            | nil =>
              simp only [List.nil_append, List.cons.injEq,
                PointerEvent.motion.injEq] at hsp2
              rw [← ha, hsp2.1]
              exact Or.inl (List.mem_cons_self _ _)
            | cons b pre3 =>
              simp only [List.cons_append, List.cons.injEq] at hsp2
              rcases ih hitTest _ s pre3 post hsp2.2 with hin | hfoc
              · exact Or.inl (List.mem_cons_of_mem _ (List.mem_cons_of_mem _ hin))
              · have hvs : v.surface = s := by simpa using hfoc
                rw [← ha, hvs]
                exact Or.inl (List.mem_cons_self _ _)

/-- C4: across any sequence of pointer-motion calls starting with no
pointer focus, every motion event delivered to a surface is strictly
preceded in the emitted event trace by a pointer-enter to that surface
(in particular the first motion on window B after crossing from window
A); and a motion call whose hit test finds no view clears pointer focus
and emits exactly the clear notification. -/
theorem pointer_enter_precedes_motion (hitTest : Int → Int → Option FocusView)
    (st0 : PointerState) (moves : List (Int × Int)) (s : Nat)
    (pre post : List PointerEvent) (x y : Int)
    (hstart : st0.pointerFocus = none)
    (hsplit : (pointer_motion_run hitTest st0 moves).2
      = pre ++ PointerEvent.motion s :: post) :
    PointerEvent.enter s ∈ pre ∧
    (hitTest x y = none →
      (comp_seat_send_pointer_motion hitTest st0 x y).1.pointerFocus = none ∧
      (comp_seat_send_pointer_motion hitTest st0 x y).2 = [PointerEvent.clearFocus]) := by
  constructor
  · rcases pointer_run_motion_has_enter moves hitTest st0 s pre post hsplit with h | h
    · exact h
    · rw [hstart] at h
      exact absurd h (by simp)
  · intro hn
    constructor
    · simp [comp_seat_send_pointer_motion, hn]
    · simp [comp_seat_send_pointer_motion, hn]

/-- Witness for C4: the cursor crosses from window A (surface 1) to
window B (surface 2) and then leaves both; the first motion on B is
preceded by the enter to B, and the final position hits nothing. -/
theorem pointer_enter_precedes_motion_witness :
    (c4start.pointerFocus = none ∧
     (pointer_motion_run c4hitTest c4start c4moves).2
       = [PointerEvent.enter 1, PointerEvent.motion 1, PointerEvent.motion 1,
          PointerEvent.enter 2] ++ PointerEvent.motion 2 :: [PointerEvent.clearFocus]) ∧
    (PointerEvent.enter 2 ∈
       [PointerEvent.enter 1, PointerEvent.motion 1, PointerEvent.motion 1,
        PointerEvent.enter 2] ∧
     (c4hitTest 25 0 = none →
       (comp_seat_send_pointer_motion c4hitTest c4start 25 0).1.pointerFocus = none ∧
       (comp_seat_send_pointer_motion c4hitTest c4start 25 0).2
         = [PointerEvent.clearFocus])) :=
  ⟨⟨rfl, by decide⟩,
   pointer_enter_precedes_motion c4hitTest c4start c4moves 2
     [PointerEvent.enter 1, PointerEvent.motion 1, PointerEvent.motion 1,
      PointerEvent.enter 2] [PointerEvent.clearFocus] 25 0 rfl (by decide)⟩

/-- Witness for C2 amended: the wellformed trace create, initial commit,
successful map ends mapped with a non-null scene-tree handle. -/
theorem scene_tree_of_mapped_witness :
    (viewTraceWF c2wfTrace = true ∧
     (view_lifecycle_exec none c2wfTrace).1 = some c2mappedView) ∧
    ((c2mappedView.mapped = true → c2mappedView.sceneTree ≠ none) ∧
     (hasMapSignal c2wfTrace = false → c2mappedView.sceneTree = none)) :=
  ⟨⟨by decide, by decide⟩,
   scene_tree_of_mapped c2wfTrace (by decide) c2mappedView (by decide)⟩

theorem set_activated_on_map_surface (vs : List FocusView) (s : Nat) (b : Bool) :
    (set_activated_on vs s b).map FocusView.surface = vs.map FocusView.surface := by
  induction vs with
  | nil => rfl
  | cons w ws ih =>
    simp only [set_activated_on, List.map_cons]
    rw [ih]
    by_cases hw : w.surface = s <;> simp [hw]

theorem set_activated_on_head_surface (vs : List FocusView) (s : Nat) (b : Bool) :
    ((set_activated_on vs s b).head?).map FocusView.surface
      = (vs.head?).map FocusView.surface := by
  cases vs with
  | nil => rfl
  | cons w ws => by_cases hw : w.surface = s <;> simp [set_activated_on, hw]

theorem activatedOf_set_self (vs : List FocusView) (s : Nat) (b : Bool)
    (hmem : s ∈ vs.map FocusView.surface) :
    activatedOf (set_activated_on vs s b) s = some b := by
  induction vs with
  | nil => simp at hmem
  | cons w ws ih =>
    unfold activatedOf at ih ⊢
    by_cases hw : w.surface = s
    · simp only [set_activated_on, if_pos hw]
      rw [List.find?_cons_of_pos _ (by simp [hw])]
      rfl
    · have hmem2 : s ∈ ws.map FocusView.surface := by
        rw [List.map_cons] at hmem
        rcases List.mem_cons.mp hmem with h | h
        · exact absurd h.symm hw
        · exact h
      simp only [set_activated_on, if_neg hw]
      rw [List.find?_cons_of_neg _ (by simp [hw])]
      exact ih hmem2

theorem activatedOf_set_other (vs : List FocusView) (s p : Nat) (b : Bool)
    (hne : p ≠ s) :
    activatedOf (set_activated_on vs s b) p = activatedOf vs p := by
  induction vs with
  | nil => rfl
  | cons w ws ih =>
    unfold activatedOf at ih ⊢
    by_cases hw : w.surface = s
    · simp only [set_activated_on, if_pos hw]
      rw [List.find?_cons_of_neg _ (by simp [hw]; exact fun h => hne h.symm)]
      rw [List.find?_cons_of_neg _ (by simp [hw]; exact fun h => hne h.symm)]
      exact ih
    · simp only [set_activated_on, if_neg hw]
      by_cases hp : w.surface = p
      · rw [List.find?_cons_of_pos _ (by simp [hp]),
           List.find?_cons_of_pos _ (by simp [hp])]
      · rw [List.find?_cons_of_neg _ (by simp [hp]),
           List.find?_cons_of_neg _ (by simp [hp])]
        exact ih

theorem find?_filter_eq_none (vs : List FocusView) (s p : Nat) (hne : p ≠ s) :
    ((vs.filter fun w => w.surface = s).find? fun w => w.surface == p) = none := by
  rw [List.find?_eq_none]
  intro x hx
  have hs : x.surface = s := by
    have := (List.mem_filter.mp hx).2
    simpa using this
  simp [hs]
  exact fun h => hne h.symm

theorem find?_filter_ne (vs : List FocusView) (s p : Nat) (hne : p ≠ s) :
    ((vs.filter fun w => !(w.surface = s)).find? fun w => w.surface == p)
      = vs.find? fun w => w.surface == p := by
  induction vs with
  | nil => rfl
  | cons w ws ih =>
    by_cases hw : w.surface = s
    · rw [List.filter_cons_of_neg (by simp [hw])]
      rw [List.find?_cons_of_neg _ (by simp [hw]; exact fun h => hne h.symm)]
      exact ih
    · rw [List.filter_cons_of_pos (by simp [hw])]
      by_cases hp : w.surface = p
      · rw [List.find?_cons_of_pos _ (by simp [hp]),
           List.find?_cons_of_pos _ (by simp [hp])]
      · rw [List.find?_cons_of_neg _ (by simp [hp]),
           List.find?_cons_of_neg _ (by simp [hp])]
        exact ih

theorem move_to_front_perm (vs : List FocusView) (s : Nat) :
    (move_to_front vs s).Perm vs := by
  unfold move_to_front
  exact List.filter_append_perm _ vs

theorem activatedOf_move_other (vs : List FocusView) (s p : Nat) (hne : p ≠ s) :
    activatedOf (move_to_front vs s) p = activatedOf vs p := by
  unfold activatedOf move_to_front
  rw [List.find?_append, find?_filter_eq_none vs s p hne, Option.none_or,
    find?_filter_ne vs s p hne]

theorem move_to_front_head (vs : List FocusView) (s : Nat)
    (hmem : s ∈ vs.map FocusView.surface) :
    ((move_to_front vs s).head?).map FocusView.surface = some s := by
  obtain ⟨a, hamem, has⟩ := List.mem_map.mp hmem
  have hafil : a ∈ vs.filter fun w => w.surface = s :=
    List.mem_filter.mpr ⟨hamem, by simp [has]⟩
  unfold move_to_front
  cases hl : vs.filter fun w => w.surface = s with
  | nil => rw [hl] at hafil; simp at hafil
  | cons a0 rest =>
    have ha0 : a0 ∈ vs.filter fun w => w.surface = s := by
      rw [hl]
      exact List.mem_cons_self _ _
    have ha0s : a0.surface = s := by
      have := (List.mem_filter.mp ha0).2
      simpa using this
    simp [ha0s]

theorem countP_surface_le_one (vs : List FocusView)
    (hnd : (vs.map FocusView.surface).Nodup) (k : Nat) :
    (vs.countP fun w => w.surface == k) ≤ 1 := by
  induction vs with
  | nil => simp
  | cons w ws ih =>
    simp only [List.map_cons, List.nodup_cons] at hnd
    obtain ⟨hnotin, hnd2⟩ := hnd
    rw [List.countP_cons]
    by_cases hk : w.surface = k
    · have hz : (ws.countP fun w => w.surface == k) = 0 := by
        rw [List.countP_eq_zero]
        intro a ha
        simp only [beq_iff_eq]
        intro hak
        exact hnotin (hk ▸ hak ▸ List.mem_map_of_mem FocusView.surface ha)
      rw [hz]
      simp [hk]
    · simp only [beq_iff_eq, hk, if_false]
      simpa using ih hnd2

theorem focusedViewCount_le_one (st : FocusState)
    (hnd : (st.views.map FocusView.surface).Nodup) : focusedViewCount st ≤ 1 := by
  unfold focusedViewCount
  cases hk : st.keyboardFocus with
  | none => simp
  | some k => exact countP_surface_le_one st.views hnd k

/-- C3 counterexample: comp_view_focus with a null view is a pure no-op:
with keyboard focus on surface 1, the call neither clears keyboard
focus (it stays on surface 1) nor emits any seat event, contradicting
the claim that a null or unmapped argument clears keyboard focus. -/
theorem focus_view_null_does_not_clear :
    (comp_view_focus c3state none).1 = c3state ∧
    (comp_view_focus c3state none).1.keyboardFocus = some 1 ∧
    (comp_view_focus c3state none).2 = [] := by
  decide

/-- C3 amended: comp_view_focus with a null or unmapped view is a no-op
leaving keyboard focus unchanged (clearing happens in the seat-level
comp_seat_focus_view and in the unmap handler, not here); with the
already-focused surface it is a no-op; otherwise it deactivates the
previously focused toplevel, moves the view to the front of the list,
activates it, sends exactly one keyboard enter, ends with keyboard
focus on the view surface, and at most one view holds keyboard focus
at any instant. -/
theorem comp_view_focus_contract (st : FocusState) (v u pv : FocusView)
    (hmem : v ∈ st.views) (hmap : v.mapped = true) (humap : u.mapped = false)
    (hnd : (st.views.map FocusView.surface).Nodup) :
    comp_view_focus st none = (st, []) ∧
    comp_view_focus st (some u) = (st, []) ∧
    (st.keyboardFocus = some v.surface → comp_view_focus st (some v) = (st, [])) ∧
    focusedViewCount st ≤ 1 ∧
    (st.keyboardFocus ≠ some v.surface →
      (comp_view_focus st (some v)).1.keyboardFocus = some v.surface ∧
      enterCount (comp_view_focus st (some v)).2 = 1 ∧
      ((comp_view_focus st (some v)).1.views.head?).map FocusView.surface
        = some v.surface ∧
      activatedOf (comp_view_focus st (some v)).1.views v.surface = some true ∧
      (pv ∈ st.views → st.keyboardFocus = some pv.surface → pv.surface ≠ v.surface →
        activatedOf (comp_view_focus st (some v)).1.views pv.surface = some false) ∧
      focusedViewCount (comp_view_focus st (some v)).1 ≤ 1) := by
  have hmemSurf : v.surface ∈ st.views.map FocusView.surface :=
    List.mem_map_of_mem FocusView.surface hmem
  refine ⟨rfl, by simp [comp_view_focus, humap], ?_, focusedViewCount_le_one st hnd, ?_⟩
  · intro hfoc
    simp [comp_view_focus, hmap, hfoc]
  · intro hne
    cases hkf : st.keyboardFocus with
    | some p =>
      have hne2 : ¬(some p = some v.surface) := by rw [← hkf]; exact hne
      have hres : comp_view_focus st (some v)
          = ({ views := set_activated_on (move_to_front
                 (set_activated_on st.views p false) v.surface) v.surface true,
               keyboardFocus := some v.surface },
             [SeatEvent.setActivated p false, SeatEvent.raiseToTop v.surface,
              SeatEvent.setActivated v.surface true,
              SeatEvent.keyboardEnter v.surface]) := by
        simp [comp_view_focus, comp_seat_focus_view, hmap, hkf, hne2]
      have hmemS : v.surface ∈ (set_activated_on st.views p false).map FocusView.surface := by
        rw [set_activated_on_map_surface]
        exact hmemSurf
      have hpermM := move_to_front_perm (set_activated_on st.views p false) v.surface
      have hmemM : v.surface ∈ (move_to_front (set_activated_on st.views p false)
          v.surface).map FocusView.surface :=
        ((hpermM.map FocusView.surface).mem_iff).mpr hmemS
      have hndres : (((comp_view_focus st (some v)).1.views).map FocusView.surface).Nodup := by
        rw [hres]
        dsimp only
        rw [set_activated_on_map_surface]
        refine ((hpermM.map FocusView.surface).nodup_iff).mpr ?_
        rw [set_activated_on_map_surface]
        exact hnd
      refine ⟨by rw [hres], by rw [hres]; simp [enterCount], ?_, ?_, ?_, ?_⟩
      · rw [hres]
        dsimp only
        rw [set_activated_on_head_surface]
        exact move_to_front_head _ _ hmemS
      · rw [hres]
        dsimp only
        exact activatedOf_set_self _ _ _ hmemM
      · intro hpv hkpv hpvne
        rw [Option.some_inj] at hkpv
        rw [hres]
        dsimp only
        rw [activatedOf_set_other _ _ _ _ hpvne, activatedOf_move_other _ _ _ hpvne,
          ← hkpv]
        rw [hkpv]
        exact activatedOf_set_self _ _ _
          (hkpv ▸ List.mem_map_of_mem FocusView.surface hpv)
      · refine Nat.le_trans (Nat.le_of_eq ?_) (focusedViewCount_le_one
          (comp_view_focus st (some v)).1 hndres)
        rfl
    | none =>
      have hres : comp_view_focus st (some v)
          = ({ views := set_activated_on (move_to_front st.views v.surface)
                 v.surface true,
               keyboardFocus := some v.surface },
             [SeatEvent.raiseToTop v.surface, SeatEvent.setActivated v.surface true,
              SeatEvent.keyboardEnter v.surface]) := by
        simp [comp_view_focus, comp_seat_focus_view, hmap, hkf]
      have hpermM := move_to_front_perm st.views v.surface
      have hmemM : v.surface ∈ (move_to_front st.views v.surface).map FocusView.surface :=
        ((hpermM.map FocusView.surface).mem_iff).mpr hmemSurf
      have hndres : (((comp_view_focus st (some v)).1.views).map FocusView.surface).Nodup := by
        rw [hres]
        dsimp only
        rw [set_activated_on_map_surface]
        exact ((hpermM.map FocusView.surface).nodup_iff).mpr hnd
      refine ⟨by rw [hres], by rw [hres]; simp [enterCount], ?_, ?_, ?_, ?_⟩
      · rw [hres]
        dsimp only
        rw [set_activated_on_head_surface]
        exact move_to_front_head _ _ hmemSurf
      · rw [hres]
        dsimp only
        exact activatedOf_set_self _ _ _ hmemM
      · intro hpv hkpv hpvne
        exact absurd hkpv (by simp)
      · exact focusedViewCount_le_one (comp_view_focus st (some v)).1 hndres

/-- Witness for C3 amended: two mapped views with A (surface 1) focused;
focusing B (surface 2) transfers focus with one keyboard enter, raises
B, activates B and deactivates A; a null or unmapped argument and a
refocus of the focused surface are no-ops. -/
theorem comp_view_focus_contract_witness :
    (c3viewB ∈ c3pair.views ∧ c3viewB.mapped = true ∧ c3viewU.mapped = false ∧
     (c3pair.views.map FocusView.surface).Nodup) ∧
    (comp_view_focus c3pair none = (c3pair, []) ∧
     comp_view_focus c3pair (some c3viewU) = (c3pair, []) ∧
     (c3pair.keyboardFocus = some c3viewB.surface →
       comp_view_focus c3pair (some c3viewB) = (c3pair, [])) ∧
     focusedViewCount c3pair ≤ 1 ∧
     (c3pair.keyboardFocus ≠ some c3viewB.surface →
       (comp_view_focus c3pair (some c3viewB)).1.keyboardFocus = some c3viewB.surface ∧
       enterCount (comp_view_focus c3pair (some c3viewB)).2 = 1 ∧
       ((comp_view_focus c3pair (some c3viewB)).1.views.head?).map FocusView.surface
         = some c3viewB.surface ∧
       activatedOf (comp_view_focus c3pair (some c3viewB)).1.views c3viewB.surface
         = some true ∧
       (c3viewA ∈ c3pair.views → c3pair.keyboardFocus = some c3viewA.surface →
         c3viewA.surface ≠ c3viewB.surface →
         activatedOf (comp_view_focus c3pair (some c3viewB)).1.views c3viewA.surface
           = some false) ∧
       focusedViewCount (comp_view_focus c3pair (some c3viewB)).1 ≤ 1)) :=
  ⟨⟨by decide, by decide, by decide, by decide⟩,
   comp_view_focus_contract c3pair c3viewB c3viewU c3viewA
     (by decide) (by decide) (by decide) (by decide)⟩

end QtWlroots
